/-
Verification of the gemini-exfil-detector correlation engine.

This file gives a shallow embedding, in Lean 4, of the core analytic code of
the repository (src/detector.py, src/recon_tracker.py, src/intent_classifier.py,
src/file_context.py) and proves or refutes the specification claims about it.

Modelling conventions:
- Python `datetime` instants are modelled as rational numbers of seconds since
  the Unix epoch (all comparisons in the code happen in UTC).
- Python floats are modelled as rationals (every float value is rational); the
  exponential-decay recon scorer, whose values are genuinely irrational, is
  modelled over the reals further below.
- Python `round(x, 2)` is modelled as rounding to the nearest multiple of 1/100
  (the half-even versus half-up tie-break does not affect any property proved
  here, all of which are monotonicity or bound statements).
- `None` becomes `Option.none`; Python truthiness of an optional string (both
  `None` and `""` are falsy) is modelled explicitly at each use site.
- Network / external-boundary calls (the Admin SDK activity source, the Drive
  file-metadata fetch, the Redis backend, ISO-8601 rendering through pytz) are
  passed in as function parameters, matching the spec's declared boundaries.
-/
import Mathlib

namespace GeminiExfil

/-- Character-list prefix test, used to build the substring test below. -/
def listPrefixOf : List Char → List Char → Bool
  | [], _ => true
  | _ :: _, [] => false
  | a :: as, b :: bs => a == b && listPrefixOf as bs

/-- Character-list infix test. -/
def listInfixOf (pat : List Char) : List Char → Bool
  | [] => listPrefixOf pat []
  | b :: rest => listPrefixOf pat (b :: rest) || listInfixOf pat rest

/-- Python's `pat in s` substring test on strings. -/
def strContains (s pat : String) : Bool :=
  listInfixOf pat.toList s.toList

/-- Python `x in collection` membership for strings. -/
def strMem (x : String) : List String → Bool
  | [] => false
  | y :: ys => x == y || strMem x ys

/-- Python `sep.join(parts)`. -/
def strJoin (sep : String) : List String → String
  | [] => ""
  | [x] => x
  | x :: y :: xs => x ++ sep ++ strJoin sep (y :: xs)

/-- The `HIGH_RISK_VISIBILITY` from detector.py. -/
def HIGH_RISK_VISIBILITY : List String :=
  ["people_with_link", "public_on_the_web", "shared_externally"]

/-- The `ExfilEvent` dataclass from detector.py (called `EgressEvent` in the spec). -/
structure ExfilEvent where
  actor : String
  timestamp : ℚ
  event_name : String
  doc_id : Option String := none
  doc_title : Option String := none
  visibility : Option String := none
  old_visibility : Option String := none
  new_value : Option String := none
  old_value : Option String := none
  owner : Option String := none
  destination_folder_id : Option String := none
  event_id : String := ""
  ip_address : Option String := none
  is_revert : Bool := false
deriving DecidableEq

/-- Python `exfil.visibility in HIGH_RISK_VISIBILITY` (a `None` visibility is
never in the set). -/
def visibilityHighRisk (v : Option String) : Bool :=
  match v with
  | some s => strMem s HIGH_RISK_VISIBILITY
  | none => false

/-- Numeric rendering used inside f-string reason messages (presentation only). -/
def fmtRat (q : ℚ) : String := toString q

/-- The `GeminiExfilDetector._calculate_severity` from detector.py, translated
statement by statement.  Returns (severity, reason string, reason codes). -/
def calculateSeverity (exfil : ExfilEvent) (delta_minutes : ℚ)
    (recon_score : ℚ) : String × String × List String :=
  let is_external_share :=
    (strContains exfil.event_name "change_acl"
        || strContains exfil.event_name "change_visibility")
      && visibilityHighRisk exfil.visibility
  let is_export_download :=
    strContains exfil.event_name "download" || strContains exfil.event_name "export"
  let is_ownership_transfer := strContains exfil.event_name "transfer_ownership"
  let is_shortcut := strContains exfil.event_name "create_shortcut"
  let is_publish := strContains exfil.event_name "publish_to_web"
  let base : String × List String × List String :=
    if exfil.is_revert then
      ("high", ["External toggle with rapid revert (evasion pattern)"],
        ["external_toggle_revert"])
    else if delta_minutes ≤ 10 then
      if is_external_share || is_ownership_transfer || is_publish then
        ("high", ["External share/transfer within 10min of recon"],
          ["external_share_immediate"])
      else if is_export_download then
        ("high", ["Export/download within 10min of recon"], ["export_immediate"])
      else if is_shortcut then
        ("medium", ["Shortcut creation within 10min of recon"],
          ["shortcut_immediate"])
      else
        ("medium", ["Activity within 10min"], ["activity_immediate"])
    else if delta_minutes ≤ 30 then
      if is_external_share || is_export_download || is_ownership_transfer then
        ("medium", ["Suspicious activity within 30min"], ["suspicious_30min"])
      else
        ("low", ["Activity correlation detected"], ["activity_correlated"])
    else
      ("low", ["Activity correlation detected"], ["activity_correlated"])
  let amplified : String × List String × List String :=
    if recon_score ≥ 10 then
      ((if base.1 = "medium" then "high"
        else if base.1 = "low" then "medium" else base.1),
       base.2.1 ++ ["High cumulative recon score (" ++ fmtRat recon_score ++ ")"],
       base.2.2 ++ ["high_recon_score"])
    else if recon_score ≥ 5 then
      (base.1,
       base.2.1 ++ ["Elevated recon score (" ++ fmtRat recon_score ++ ")"],
       base.2.2 ++ ["elevated_recon_score"])
    else base
  (amplified.1, strJoin "; " amplified.2.1, amplified.2.2)

/-- Modelled from the spec: the section 4.7 base-severity table, written as a
flat first-matching-row-wins list of rows, followed by the recon-score
amplification rule.  Returns (severity, reason codes in order appended).  The
event classification predicates repeat section 4.7 verbatim. -/
def severitySpec (exfil : ExfilEvent) (delta_minutes : ℚ)
    (recon_score : ℚ) : String × List String :=
  let external_share :=
    (strContains exfil.event_name "change_acl"
        || strContains exfil.event_name "change_visibility")
      && visibilityHighRisk exfil.visibility
  let export_download :=
    strContains exfil.event_name "download" || strContains exfil.event_name "export"
  let ownership_transfer := strContains exfil.event_name "transfer_ownership"
  let shortcut := strContains exfil.event_name "create_shortcut"
  let publish := strContains exfil.event_name "publish_to_web"
  let d10 : Bool := decide (delta_minutes ≤ 10)
  let d30 : Bool := decide (delta_minutes ≤ 30)
  let base : String × String :=
    if exfil.is_revert then ("high", "external_toggle_revert")
    else if d10 && (external_share || ownership_transfer || publish) then
      ("high", "external_share_immediate")
    else if d10 && export_download then ("high", "export_immediate")
    else if d10 && shortcut then ("medium", "shortcut_immediate")
    else if d10 then ("medium", "activity_immediate")
    else if d30 && (external_share || export_download || ownership_transfer) then
      ("medium", "suspicious_30min")
    else ("low", "activity_correlated")
  if recon_score ≥ 10 then
    ((if base.1 = "low" then "medium"
      else if base.1 = "medium" then "high" else base.1),
     [base.2, "high_recon_score"])
  else if recon_score ≥ 5 then
    (base.1, [base.2, "elevated_recon_score"])
  else (base.1, [base.2])

/-! ## IntentClassifier (intent_classifier.py)

The classifier's mutable attributes (`user_baselines`, the domain-reputation
cache) are threaded explicitly.  Python dicts are modelled as association
lists in insertion order; Python sets of strings as duplicate-free lists in
insertion order.  The wall-clock fields `first_seen` / `last_updated` of
`UserBaseline` (set from `datetime.utcnow()`, never read by the analytics)
are not modelled. -/

/-- Python `round(x, 2)`: round to the nearest multiple of 1/100.  (Python
rounds ties to even; every property proved below is tie-break independent.) -/
def round2 (x : ℚ) : ℚ := ((round (100 * x) : ℤ) : ℚ) / 100

/-- Python `str.lower()` (ASCII case folding, as applied to emails/domains). -/
def strLower (s : String) : String := String.mk (s.data.map Char.toLower)

/-- Python whitespace, as stripped by `str.strip()`. -/
def isPySpace (c : Char) : Bool :=
  c == ' ' || c == '\t' || c == '\n' || c == '\r' || c == '\x0b' || c == '\x0c'

/-- Python `str.strip()`. -/
def strStrip (s : String) : String :=
  String.mk (((s.data.dropWhile isPySpace).reverse.dropWhile isPySpace).reverse)

/-- Python `str.split(sep)` for a one-character separator, on char lists. -/
def splitOnCharList (c : Char) : List Char → List (List Char)
  | [] => [[]]
  | a :: as =>
    if a == c then [] :: splitOnCharList c as
    else
      match splitOnCharList c as with
      | [] => [[a]]
      | g :: gs => (a :: g) :: gs

/-- Python dict lookup over an insertion-ordered association list. -/
def lookupStr {β : Type} (k : String) : List (String × β) → Option β
  | [] => none
  | p :: rest => if p.1 = k then some p.2 else lookupStr k rest

/-- The `UserBaseline` dataclass from intent_classifier.py. -/
structure UserBaseline where
  actor : String
  typical_share_domains : List String
  typical_share_count : ℕ
  typical_download_count : ℕ
deriving DecidableEq

/-- The dict returned by `IntentClassifier.classify_intent`. -/
structure IntentAnalysis where
  intent : String
  confidence : ℚ
  reasons : List String
  should_suppress : Bool
  destination_domain : Option String
deriving DecidableEq

/-- The mutable state of `IntentClassifier`. -/
structure ClassifierState where
  trusted_domains : List String
  partner_domains : List String
  user_baselines : List (String × UserBaseline)
  domain_reputation_cache : List (String × String)
deriving DecidableEq

/-- The `IntentClassifier._extract_destination_domain`: from `new_value`, if it
contains `@`, the part after the last `@` (`split("@")[-1]`), stripped.
`None` and `""` yield no domain; `visibility` is ignored, as in the source. -/
def extractDestinationDomain (new_value _visibility : Option String) :
    Option String :=
  match new_value with
  | none => none
  | some s =>
    if s = "" then none
    else if strContains s "@" then
      some (strStrip (String.mk ((splitOnCharList '@' s.data).getLastD [])))
    else none

/-- The `IntentClassifier._get_domain_reputation` (consults and fills the cache). -/
def getDomainReputation (st : ClassifierState) (domain : String) :
    String × ClassifierState :=
  let dl := strLower domain
  match lookupStr dl st.domain_reputation_cache with
  | some rep => (rep, st)
  | none =>
    let rep :=
      if strMem dl st.trusted_domains then "trusted"
      else if strMem dl st.partner_domains then "partner"
      else "unknown"
    (rep, { st with
        domain_reputation_cache := st.domain_reputation_cache ++ [(dl, rep)] })

/-- The `IntentClassifier._normalize_email`: `email.lower().strip()`. -/
def normalizeEmail (e : String) : String := strStrip (strLower e)

/-- The `IntentClassifier._get_or_create_baseline`. -/
def getOrCreateBaseline (st : ClassifierState) (actor : String) :
    UserBaseline × ClassifierState :=
  match lookupStr actor st.user_baselines with
  | some b => (b, st)
  | none =>
    let b : UserBaseline := ⟨actor, [], 0, 0⟩
    (b, { st with user_baselines := st.user_baselines ++ [(actor, b)] })

/-- The `datetime.hour` of a UTC instant given as rational seconds since epoch. -/
def hourOf (t : ℚ) : ℤ := (Int.fdiv ⌊t⌋ 3600).emod 24

/-- Python `datetime.weekday()` (Monday = 0) of a UTC instant; the Unix epoch
day 1970-01-01 was a Thursday (weekday 3). -/
def weekdayOf (t : ℚ) : ℤ := ((Int.fdiv ⌊t⌋ 86400) + 3).emod 7

/-- The `IntentClassifier._is_off_hours`: weekend, or hour < 6, or hour > 20. -/
def isOffHours (t : ℚ) : Bool :=
  weekdayOf t ≥ 5 || hourOf t < 6 || hourOf t > 20

/-- Running accumulator of `classify_intent`: the `reasons` list, the
`confidence` value, the `should_suppress` flag, and the classifier state. -/
structure ClassifyAcc where
  reasons : List String
  confidence : ℚ
  should_suppress : Bool
  st : ClassifierState

/-- The destination-domain reputation block of `classify_intent`
(guarded by Python truthiness of `destination_domain`). -/
def classifyDomainBlock (acc : ClassifyAcc) (destination_domain : Option String) :
    ClassifyAcc :=
  match destination_domain with
  | none => acc
  | some d =>
    if d = "" then acc
    else
      let pr := getDomainReputation acc.st d
      if pr.1 = "trusted" then
        { acc with
          reasons := acc.reasons ++ ["Destination domain " ++ d ++ " is trusted"],
          confidence := acc.confidence - 2/5, should_suppress := true, st := pr.2 }
      else if pr.1 = "partner" then
        { acc with
          reasons := acc.reasons ++
            ["Destination domain " ++ d ++ " is a known partner"],
          confidence := acc.confidence - 1/5, st := pr.2 }
      else if pr.1 = "unknown" then
        { acc with
          reasons := acc.reasons ++
            ["Destination domain " ++ d ++ " is unknown/untrusted"],
          confidence := acc.confidence + 3/10, st := pr.2 }
      else { acc with st := pr.2 }

/-- The file-ownership block of `classify_intent`
(guarded by `if doc_owner and actor:`). -/
def classifyOwnerBlock (acc : ClassifyAcc) (actor : String)
    (doc_owner : Option String) : ClassifyAcc :=
  match doc_owner with
  | none => acc
  | some o =>
    if o = "" ∨ actor = "" then acc
    else if normalizeEmail o = normalizeEmail actor then
      { acc with reasons := acc.reasons ++ ["User is sharing their own file"],
                 confidence := acc.confidence - 1/10 }
    else
      { acc with
        reasons := acc.reasons ++ ["User is sharing someone else's file"],
        confidence := acc.confidence + 3/10 }

/-- The historical-sharing block of `classify_intent` (after
`_get_or_create_baseline`, which always yields a truthy baseline). -/
def classifyBaselineBlock (acc : ClassifyAcc) (baseline : UserBaseline)
    (destination_domain : Option String) : ClassifyAcc :=
  let destTruthy : Bool :=
    match destination_domain with
    | some d => !(d == "")
    | none => false
  let d := destination_domain.getD ""
  if destTruthy && strMem d baseline.typical_share_domains then
    { acc with
      reasons := acc.reasons ++ ["User has historically shared with " ++ d],
      confidence := acc.confidence - 1/5 }
  else if destTruthy then
    { acc with reasons := acc.reasons ++ ["First-time share with " ++ d],
               confidence := acc.confidence + 1/5 }
  else acc

/-- The off-hours block of `classify_intent`. -/
def classifyOffHoursBlock (acc : ClassifyAcc) (timestamp : ℚ) : ClassifyAcc :=
  if isOffHours timestamp then
    { acc with reasons := acc.reasons ++ ["Activity occurred during off-hours"],
               confidence := acc.confidence + 1/5 }
  else acc

/-- The frequent-downloader block of `classify_intent`. -/
def classifyDownloadBlock (acc : ClassifyAcc) (exfil_event : String)
    (baseline : UserBaseline) : ClassifyAcc :=
  if exfil_event = "download" ∨ exfil_event = "export" then
    if baseline.typical_download_count > 10 then
      { acc with
        reasons := acc.reasons ++
          ["User frequently downloads files (likely legitimate workflow)"],
        confidence := acc.confidence - 3/20 }
    else acc
  else acc

/-- The `IntentClassifier.classify_intent`, blocks chained in source order;
returns the analysis dict and the post-call classifier state. -/
def classifyIntent (st : ClassifierState) (actor exfil_event : String)
    (_doc_id doc_owner visibility : Option String) (timestamp : ℚ)
    (new_value : Option String) : IntentAnalysis × ClassifierState :=
  let destination_domain := extractDestinationDomain new_value visibility
  let a1 := classifyDomainBlock ⟨[], 1/2, false, st⟩ destination_domain
  let a2 := classifyOwnerBlock a1 actor doc_owner
  let gb := getOrCreateBaseline a2.st actor
  let a3 := classifyBaselineBlock { a2 with st := gb.2 } gb.1 destination_domain
  let a4 := classifyOffHoursBlock a3 timestamp
  let a5 := classifyDownloadBlock a4 exfil_event gb.1
  let intent :=
    if a5.confidence ≥ 7/10 then "malicious"
    else if a5.confidence ≥ 2/5 then "suspicious"
    else "legitimate"
  ({ intent := intent, confidence := round2 a5.confidence,
     reasons := a5.reasons, should_suppress := a5.should_suppress,
     destination_domain := destination_domain }, a5.st)

/-- Replace the stored entry of `actor` (Python mutates the dict value). -/
def setBaselineEntry (l : List (String × UserBaseline)) (actor : String)
    (b : UserBaseline) : List (String × UserBaseline) :=
  l.map (fun p => if p.1 = actor then (p.1, b) else p)

/-- The `IntentClassifier.update_baseline`. -/
def updateBaseline (st : ClassifierState) (actor exfil_event : String)
    (destination_domain : Option String) : ClassifierState :=
  let gb := getOrCreateBaseline st actor
  let b0 := gb.1
  let st1 := gb.2
  let b1 :=
    match destination_domain with
    | none => b0
    | some d =>
      if d = "" then b0
      else
        { b0 with
          typical_share_domains :=
            if strMem d b0.typical_share_domains then b0.typical_share_domains
            else b0.typical_share_domains ++ [d],
          typical_share_count := b0.typical_share_count + 1 }
  let b2 :=
    if exfil_event = "download" ∨ exfil_event = "export" then
      { b1 with typical_download_count := b1.typical_download_count + 1 }
    else b1
  { st1 with user_baselines := setBaselineEntry st1.user_baselines actor b2 }

/-- The `IntentClassifier.build_baselines_from_history`. -/
def buildBaselinesFromHistory (st : ClassifierState)
    (drive_events : List ExfilEvent) : ClassifierState :=
  drive_events.foldl
    (fun s e =>
      updateBaseline s e.actor e.event_name
        (extractDestinationDomain e.new_value e.visibility))
    st

/-- The stored share counter of actor `a` (0 when `a` has no baseline). -/
def shareCountOf (st : ClassifierState) (a : String) : ℕ :=
  ((lookupStr a st.user_baselines).map (fun b => b.typical_share_count)).getD 0

/-- The stored download counter of actor `a` (0 when `a` has no baseline). -/
def downloadCountOf (st : ClassifierState) (a : String) : ℕ :=
  ((lookupStr a st.user_baselines).map
    (fun b => b.typical_download_count)).getD 0

/-- The stored share-domain set of actor `a` (empty when `a` has no baseline). -/
def shareDomainsOf (st : ClassifierState) (a : String) : List String :=
  ((lookupStr a st.user_baselines).map
    (fun b => b.typical_share_domains)).getD []


/-! ## FileContextEnricher (file_context.py)

The Drive metadata fetch is an external boundary (`FileMetadataSource` in the
spec); correlator-level theorems take the function from doc id to cached
`FileMetadata` as a parameter.  The sensitivity computation and the in-place
finding enrichment are repository code and are embedded below. -/

/-- The `FileMetadata` dataclass from file_context.py.  The `last_accessed` field
(set from `datetime.utcnow()` at fetch time and unused by enrichment) is not
modelled. -/
structure FileMetadata where
  doc_id : String
  title : String
  owner : String
  labels : List String
  sensitivity : String
  shared_externally : Bool
deriving DecidableEq

/-- The `FileContextEnricher._determine_sensitivity`, with the configured
`sensitive_labels` passed explicitly (the source reads them from config at
construction time).  Note that step 2 tests the whole lowercased owner email
string. -/
def determineSensitivity (sensitive_labels : List String)
    (labels : List String) (owner : String) : String :=
  let label_lower := labels.map strLower
  if sensitive_labels.any
      (fun sl => label_lower.any (fun l => strContains l (strLower sl))) then
    "high"
  else if ["exec", "ceo", "cfo", "finance"].any
      (fun term => strContains (strLower owner) term) then
    "high"
  else if ["confidential", "restricted", "internal", "sensitive",
      "private"].any (fun term => label_lower.any (fun l => strContains l term))
      then
    "medium"
  else "low"

/-- Modelled from the spec: step 2 of the section 4.3 sensitivity algorithm as
the spec words it — "the owner email local-part contains any of {exec, ceo,
cfo, finance}", the local-part being the part before the `@`. -/
def sensitivityStep2Spec (owner : String) : Bool :=
  let local_part := String.mk (owner.data.takeWhile (fun c => !(c == '@')))
  ["exec", "ceo", "cfo", "finance"].any
    (fun term => strContains (strLower local_part) term)

/-! ## Correlator (GeminiExfilDetector.correlate_events) -/

/-- The `ReconEvent` dataclass from detector.py. -/
structure ReconEvent where
  actor : String
  timestamp : ℚ
  app : String
  action : String
  event_id : String
deriving DecidableEq

/-- The `file_context` block attached to findings by `enrich_finding`. -/
structure FileContext where
  sensitivity : String
  labels : List String
  owner : String
  shared_externally_before : Bool
deriving DecidableEq

/-- The `Finding` dataclass from detector.py.  The `event_ids` dict has exactly
the keys "recon" and "exfil" and is modelled as two fields; `exfil_time` /
`recon_time` are the ISO-8601 renderings produced by
`timestamp.astimezone(tz).isoformat()`, supplied to the correlator as its
`renderTime` parameter. -/
structure Finding where
  severity : String
  actor : String
  exfil_event : String
  exfil_time : String
  doc_id : Option String
  doc_title : Option String
  recon_action : String
  recon_time : String
  delta_minutes : ℚ
  visibility : Option String
  reason : String
  event_ids_recon : String
  event_ids_exfil : String
  recon_score : Option ℚ := none
  file_context : Option FileContext := none
  intent_analysis : Option IntentAnalysis := none
  reason_codes : Option (List String) := none
  ip_address : Option String := none
  geo_anomaly : Option Bool := none
deriving DecidableEq

/-- The `FileContextEnricher.enrich_finding`: attach the `file_context` block and
promote medium→high / low→medium when the file is high-sensitivity, appending
`" (high-sensitivity file)"` to the reason.  The cached metadata fetch
`get_file_metadata` (an external Drive call) is the `getMeta` parameter; a
falsy `doc_id` or a failed fetch leaves the finding unchanged. -/
def enrichFinding (getMeta : String → Option FileMetadata)
    (f : Finding) (doc_id : Option String) : Finding :=
  match doc_id with
  | none => f
  | some d =>
    if d = "" then f
    else
      match getMeta d with
      | none => f
      | some m =>
        let fc : FileContext :=
          ⟨m.sensitivity, m.labels, m.owner, m.shared_externally⟩
        let f1 := { f with file_context := some fc }
        if m.sensitivity = "high" then
          if f1.severity = "medium" then
            { f1 with severity := "high",
                      reason := f1.reason ++ " (high-sensitivity file)" }
          else if f1.severity = "low" then
            { f1 with severity := "medium",
                      reason := f1.reason ++ " (high-sensitivity file)" }
          else f1
        else f1

/-- The pipeline context of `correlate_events`: the configured
`canary_doc_ids`; the stateful recon scorer (`self.recon_tracker
.get_recon_score`, whose own definition is modelled over ℝ below) as a
function of actor and egress timestamp; the optional file enricher's metadata
source (`self.file_enricher`); and the ISO time renderer. -/
structure CorrelateCtx where
  canary_doc_ids : List String
  getReconScore : String → ℚ → ℚ
  getMeta : Option (String → Option FileMetadata)
  renderTime : ℚ → String

/-- The body of the matched-recon branch of `correlate_events` (detector.py
lines 352-415): severity computation, canary override, draft construction,
optional enrichment, optional intent classification with the suppression
check and the legitimate-intent downgrade.  Returns the finding to append
(`none` when suppressed) and the threaded classifier state. -/
def mkMatchedFinding (ctx : CorrelateCtx) (cls : Option ClassifierState)
    (exfil : ExfilEvent) (recon : ReconEvent)
    (delta_minutes recon_score : ℚ) : Option Finding × Option ClassifierState :=
  let sev0 := calculateSeverity exfil delta_minutes recon_score
  let canaryHit : Bool :=
    match exfil.doc_id with
    | some d => !(d == "") && strMem d ctx.canary_doc_ids
    | none => false
  let severity := if canaryHit then "high" else sev0.1
  let reason :=
    if canaryHit then "CANARY DOCUMENT ACCESS - " ++ sev0.2.1 else sev0.2.1
  let reason_codes :=
    if canaryHit then sev0.2.2 ++ ["canary_doc_access"] else sev0.2.2
  let draft : Finding :=
    { severity := severity, actor := exfil.actor,
      exfil_event := exfil.event_name,
      exfil_time := ctx.renderTime exfil.timestamp,
      doc_id := exfil.doc_id, doc_title := exfil.doc_title,
      recon_action := recon.action,
      recon_time := ctx.renderTime recon.timestamp,
      delta_minutes := round2 delta_minutes,
      visibility := exfil.visibility, reason := reason,
      event_ids_recon := recon.event_id, event_ids_exfil := exfil.event_id,
      recon_score := some recon_score, reason_codes := some reason_codes,
      ip_address := exfil.ip_address }
  let enriched :=
    match ctx.getMeta with
    | some gm => enrichFinding gm draft exfil.doc_id
    | none => draft
  match cls with
  | none => (some enriched, none)
  | some st =>
    let ia := classifyIntent st exfil.actor exfil.event_name exfil.doc_id
      exfil.owner exfil.visibility exfil.timestamp exfil.new_value
    if ia.1.should_suppress then (none, some ia.2)
    else
      let withIntent := { enriched with intent_analysis := some ia.1 }
      let final :=
        if ia.1.intent = "legitimate" then
          if withIntent.severity = "high" then
            { withIntent with severity := "medium" }
          else if withIntent.severity = "medium" then
            { withIntent with severity := "low" }
          else withIntent
        else withIntent
      (some final, some ia.2)

/-- The inner `for recon in recon_by_actor.get(...)` loop of
`correlate_events`: returns the threaded classifier state, the findings for
this egress event in recon order, and the `matched_recon` flag. -/
def correlateRecons (ctx : CorrelateCtx) (window_minutes : ℤ)
    (exfil : ExfilEvent) (recon_score : ℚ) :
    List ReconEvent → Option ClassifierState →
      Option ClassifierState × List Finding × Bool
  | [], cls => (cls, [], false)
  | recon :: rest, cls =>
    let delta_minutes := (exfil.timestamp - recon.timestamp) / 60
    if 0 ≤ delta_minutes ∧ delta_minutes ≤ (window_minutes : ℚ) then
      let fc := mkMatchedFinding ctx cls exfil recon delta_minutes recon_score
      let r := correlateRecons ctx window_minutes exfil recon_score rest fc.2
      (r.1, (match fc.1 with | some f => f :: r.2.1 | none => r.2.1), true)
    else
      correlateRecons ctx window_minutes exfil recon_score rest cls

/-- The delayed-exfil finding constructed at detector.py lines 421-435:
severity medium, `cumulative_recon`, delta 0.0; the dataclass defaults leave
`file_context`, `intent_analysis`, `reason_codes`, `ip_address` and
`geo_anomaly` as `None`. -/
def delayedFinding (ctx : CorrelateCtx) (exfil : ExfilEvent)
    (recon_score : ℚ) : Finding :=
  { severity := "medium", actor := exfil.actor,
    exfil_event := exfil.event_name,
    exfil_time := ctx.renderTime exfil.timestamp,
    doc_id := exfil.doc_id, doc_title := exfil.doc_title,
    recon_action := "cumulative_recon",
    recon_time := "N/A (multi-stage)", delta_minutes := 0,
    visibility := exfil.visibility,
    reason := "Delayed exfil after cumulative recon (score="
      ++ fmtRat recon_score ++ ")",
    event_ids_recon := "N/A", event_ids_exfil := exfil.event_id,
    recon_score := some recon_score }

/-- The body of the outer `for exfil in exfil_events:` loop of
`correlate_events`, including the delayed-exfil branch (detector.py lines
417-436): when no recon matched and the cumulative recon score exceeds 5.0,
the delayed finding is appended directly (no canary check, no enrichment, no
intent classification). -/
def processExfil (ctx : CorrelateCtx) (window_minutes : ℤ)
    (recon_events : List ReconEvent)
    (acc : Option ClassifierState × List Finding) (exfil : ExfilEvent) :
    Option ClassifierState × List Finding :=
  let recon_score := ctx.getReconScore exfil.actor exfil.timestamp
  let recons := recon_events.filter (fun r => r.actor == exfil.actor)
  let r := correlateRecons ctx window_minutes exfil recon_score recons acc.1
  let withMatches := acc.2 ++ r.2.1
  if r.2.2 = false ∧ recon_score > 5 then
    (r.1, withMatches ++ [delayedFinding ctx exfil recon_score])
  else (r.1, withMatches)

/-- The `GeminiExfilDetector.correlate_events`: build baselines from the egress
history when a classifier is present, then process each egress event in
order.  `cls0` is `none` when `self.intent_classifier` is `None`. -/
def correlateEvents (ctx : CorrelateCtx) (cls0 : Option ClassifierState)
    (recon_events : List ReconEvent) (exfil_events : List ExfilEvent)
    (window_minutes : ℤ) : List Finding :=
  let cls1 := cls0.map (fun st => buildBaselinesFromHistory st exfil_events)
  (exfil_events.foldl (processExfil ctx window_minutes recon_events)
    (cls1, [])).2

/-- Provenance of a finding emitted for egress event `exfil`: either the
matched-recon emission site (some recon of the same actor with delta inside
`[0, window]`, under some classifier state reached at that loop iteration),
or the delayed-exfil emission site. -/
def EmittedBy (ctx : CorrelateCtx) (window_minutes : ℤ)
    (recon_events : List ReconEvent) (exfil : ExfilEvent) (f : Finding) :
    Prop :=
  (∃ recon ∈ recon_events.filter (fun r => r.actor == exfil.actor),
    ∃ cls : Option ClassifierState,
      0 ≤ (exfil.timestamp - recon.timestamp) / 60 ∧
      (exfil.timestamp - recon.timestamp) / 60 ≤ (window_minutes : ℚ) ∧
      (mkMatchedFinding ctx cls exfil recon
        ((exfil.timestamp - recon.timestamp) / 60)
        (ctx.getReconScore exfil.actor exfil.timestamp)).1 = some f) ∨
  f = delayedFinding ctx exfil (ctx.getReconScore exfil.actor exfil.timestamp)

/-- A context with no canary docs, a zero scorer, no enricher, and an inert
time renderer, for concrete correlator runs. -/
def plainCtx : CorrelateCtx :=
  { canary_doc_ids := [], getReconScore := fun _ _ => 0, getMeta := none,
    renderTime := fun _ => "" }

/-- An all-default finding, used only to state head-of-list evaluations. -/
def blankFinding : Finding :=
  { severity := "", actor := "", exfil_event := "", exfil_time := "",
    doc_id := none, doc_title := none, recon_action := "", recon_time := "",
    delta_minutes := 0, visibility := none, reason := "",
    event_ids_recon := "", event_ids_exfil := "" }

/-- Concrete context for whole-pipeline runs: one canary doc `D1`, a zero
scorer, no enricher, inert renderer. -/
def wCtx : CorrelateCtx :=
  { canary_doc_ids := ["D1"], getReconScore := fun _ _ => 0, getMeta := none,
    renderTime := fun _ => "" }

/-- Concrete recon event for whole-pipeline runs. -/
def wRecon : ReconEvent := ⟨"u@x", 600, "docs", "summarize_file", "r1"⟩

/-- Concrete egress event: an external ACL change on the canary doc, 5
minutes after the recon, at 00:15 UTC on 1970-01-01 (off-hours). -/
def wExfil : ExfilEvent :=
  { actor := "u@x", timestamp := 900, event_name := "change_acl_editors",
    doc_id := some "D1", visibility := some "people_with_link",
    event_id := "e2" }

/-- The empty classifier state (a configuration with no trusted or partner
domains). -/
def st0 : ClassifierState := ⟨[], [], [], []⟩

/-- The classifier state after baseline building on `[wExfil]`. -/
def st1 : ClassifierState := ⟨[], [], [("u@x", ⟨"u@x", [], 0, 0⟩)], []⟩

/-- The intent analysis produced for `wExfil` (off-hours is the only firing
signal: confidence 0.7, malicious, not suppressed). -/
def wIA : IntentAnalysis :=
  ⟨"malicious", 7/10, ["Activity occurred during off-hours"], false, none⟩

/-- The finding emitted by the concrete run `wRun`. -/
def wF : Finding :=
  { severity := "high", actor := "u@x", exfil_event := "change_acl_editors",
    exfil_time := "", doc_id := some "D1", doc_title := none,
    recon_action := "summarize_file", recon_time := "", delta_minutes := 5,
    visibility := some "people_with_link",
    reason := "CANARY DOCUMENT ACCESS - External share/transfer within 10min of recon",
    event_ids_recon := "r1", event_ids_exfil := "e2", recon_score := some 0,
    file_context := none, intent_analysis := some wIA,
    reason_codes := some ["external_share_immediate", "canary_doc_access"],
    ip_address := none, geo_anomaly := none }

/-- The concrete whole-pipeline run with classifier present. -/
def wRun : List Finding :=
  correlateEvents wCtx (some st0) [wRecon] [wExfil] 30

/-- Context whose scorer reports a cumulative score of 6, for a delayed-exfil
run. -/
def wCtx2 : CorrelateCtx :=
  { canary_doc_ids := ["D1"], getReconScore := fun _ _ => 6, getMeta := none,
    renderTime := fun _ => "" }

/-- A run with no recon events at all: `wExfil` triggers the delayed-exfil
branch despite its canary doc id. -/
def wRun2 : List Finding := correlateEvents wCtx2 none [] [wExfil] 30

/-! ## ReconTracker (recon_tracker.py)

The Redis path degrades to the in-memory dict on any backend error; the
in-memory store is the modelled path.  The decay `0.5 ** (hours / 48)` is a
real exponential, so this component is modelled over ℝ (noncomputably); the
`isoformat`/`fromisoformat` round-trip of stored timestamps is the identity
on instants. -/

noncomputable section

/-- The `DECAY_HALF_LIFE_HOURS` from recon_tracker.py. -/
def DECAY_HALF_LIFE_HOURS : ℝ := 48

/-- The `ReconTracker._calculate_decay_factor`:
`0.5 ** (hours_elapsed / DECAY_HALF_LIFE_HOURS)` with
`hours_elapsed = (current_time - activity_time).total_seconds() / 3600`.
There is no clamping of negative elapsed time. -/
def calculateDecayFactor (activity_time current_time : ℝ) : ℝ :=
  (0.5 : ℝ) ^ (((current_time - activity_time) / 3600) / DECAY_HALF_LIFE_HOURS)

/-- The `ReconTracker._action_to_score`.  (`high.get(action) or
medium.get(action, 1.0)`; no table value is falsy, so `or` is plain
fallback.) -/
def actionToScore (action : String) : ℝ :=
  if action = "ask_about_this_file" then 3
  else if action = "summarize_file" then 3
  else if action = "analyze_documents" then 4
  else if action = "catch_me_up" then 5
  else if action = "summarize_long" then 2
  else if action = "ask_about_context" then 2
  else if action = "summarize" then 3/2
  else 1

/-- The stored activity dict (`asdict(ReconActivity)` with the timestamp
serialized); `get_recon_score` reads back `timestamp` and `score`. -/
structure StoredActivity where
  actor : String
  timestamp : ℝ
  app : String
  action : String
  score : ℝ
  doc_id : Option String := none

/-- The `ReconTracker.memory_store`: dict from `"recon:" ++ actor` to the stored
activities in append order. -/
abbrev ReconMemStore := List (String × List StoredActivity)

/-- The `ReconTracker.record_recon` through `_store_in_memory`. -/
def recordRecon (store : ReconMemStore) (actor : String) (timestamp : ℝ)
    (app action : String) (doc_id : Option String) : ReconMemStore :=
  let key := "recon:" ++ actor
  let activity : StoredActivity :=
    ⟨actor, timestamp, app, action, actionToScore action, doc_id⟩
  match lookupStr key store with
  | some _ =>
    store.map (fun p => if p.1 = key then (p.1, p.2 ++ [activity]) else p)
  | none => store ++ [(key, [activity])]

/-- Rounding to 2 decimals over ℝ (Python `round(total_score, 2)`, up to the
monotone tie-break). -/
def round2R (x : ℝ) : ℝ := ((round (100 * x) : ℤ) : ℝ) / 100

/-- The `ReconTracker.get_recon_score`: decayed sum of the actor's stored scores,
rounded to 2 decimals. -/
def getReconScoreR (store : ReconMemStore) (actor : String)
    (current_time : ℝ) : ℝ :=
  let activities := (lookupStr ("recon:" ++ actor) store).getD []
  round2R ((activities.map
    (fun a => a.score * calculateDecayFactor a.timestamp current_time)).sum)

/-- One `record_recon` call: (actor, timestamp, app, action, doc_id). -/
abbrev RecordCall := String × ℝ × String × String × Option String

/-- A store produced by a sequence of `record_recon` calls starting from the
empty in-memory dict. -/
def buildStore (recs : List RecordCall) : ReconMemStore :=
  recs.foldl
    (fun s r => recordRecon s r.1 r.2.1 r.2.2.1 r.2.2.2.1 r.2.2.2.2) []

end

/-! ## Theorems -/

theorem lookupStr_append {β : Type} (k : String) (l₁ l₂ : List (String × β)) :
    lookupStr k (l₁ ++ l₂) =
      match lookupStr k l₁ with
      | some b => some b
      | none => lookupStr k l₂ := by
  induction l₁ with
  | nil => rfl
  | cons p rest ih => by_cases h : p.1 = k <;> simp [lookupStr, h, ih]

theorem getDomainReputation_user_baselines (st : ClassifierState) (d : String) :
    (getDomainReputation st d).2.user_baselines = st.user_baselines := by
  simp only [getDomainReputation]
  cases h : lookupStr (strLower d) st.domain_reputation_cache <;> simp [h]

theorem classifyDomainBlock_user_baselines (acc : ClassifyAcc)
    (dd : Option String) :
    (classifyDomainBlock acc dd).st.user_baselines = acc.st.user_baselines := by
  cases dd with
  | none => rfl
  | some d =>
    simp only [classifyDomainBlock]
    split_ifs <;> simp [getDomainReputation_user_baselines]

theorem classifyOwnerBlock_st (acc : ClassifyAcc) (a : String)
    (o : Option String) : (classifyOwnerBlock acc a o).st = acc.st := by
  cases o with
  | none => rfl
  | some x =>
    simp only [classifyOwnerBlock]
    split_ifs <;> rfl

theorem classifyBaselineBlock_st (acc : ClassifyAcc) (b : UserBaseline)
    (dd : Option String) : (classifyBaselineBlock acc b dd).st = acc.st := by
  simp only [classifyBaselineBlock]
  split_ifs <;> rfl

theorem classifyOffHoursBlock_st (acc : ClassifyAcc) (t : ℚ) :
    (classifyOffHoursBlock acc t).st = acc.st := by
  simp only [classifyOffHoursBlock]
  split_ifs <;> rfl

theorem classifyDownloadBlock_st (acc : ClassifyAcc) (e : String)
    (b : UserBaseline) : (classifyDownloadBlock acc e b).st = acc.st := by
  simp only [classifyDownloadBlock]
  split_ifs <;> rfl

theorem getOrCreateBaseline_user_baselines (st : ClassifierState)
    (actor : String) :
    (getOrCreateBaseline st actor).2.user_baselines =
      match lookupStr actor st.user_baselines with
      | some _ => st.user_baselines
      | none => st.user_baselines ++ [(actor, ⟨actor, [], 0, 0⟩)] := by
  unfold getOrCreateBaseline
  cases h : lookupStr actor st.user_baselines <;> simp [h]

/-- The baseline dict after `classify_intent`: unchanged when the actor already
has a baseline, otherwise extended with a fresh all-zero baseline. -/
theorem classifyIntent_user_baselines (st : ClassifierState)
    (actor exfil_event : String) (doc_id doc_owner visibility : Option String)
    (timestamp : ℚ) (new_value : Option String) :
    (classifyIntent st actor exfil_event doc_id doc_owner visibility timestamp
        new_value).2.user_baselines =
      match lookupStr actor st.user_baselines with
      | some _ => st.user_baselines
      | none => st.user_baselines ++ [(actor, ⟨actor, [], 0, 0⟩)] := by
  unfold classifyIntent
  simp only [classifyDownloadBlock_st, classifyOffHoursBlock_st,
    classifyBaselineBlock_st, getOrCreateBaseline_user_baselines,
    classifyOwnerBlock_st, classifyDomainBlock_user_baselines]

/-- C5 counterexample: classifying a share with destination
`bob@evil.com` starting from an empty classifier state leaves the actor's
`typical_share_count` at 0; the claimed implicit `update_baseline` call would
have made it 1. -/
theorem classifyIntent_share_count_not_incremented :
    ¬ ((lookupStr "alice@corp.com"
          (classifyIntent ⟨[], [], [], []⟩ "alice@corp.com" "change_acl"
            none none none 0 (some "bob@evil.com")).2.user_baselines).map
        (fun b => b.typical_share_count) = some 1) := by
  decide

/-- C5 amended: `classify_intent` never calls `update_baseline`; it only reads
the actor's baseline through `_get_or_create_baseline`.  For every actor, the
stored `typical_share_count`, `typical_download_count` and
`typical_share_domains` are exactly the same after classification as before
(an actor without a baseline gets a fresh all-zero one, which observes the
same counts). -/
theorem classifyIntent_no_implicit_baseline_update (st : ClassifierState)
    (actor exfil_event : String) (doc_id doc_owner visibility : Option String)
    (timestamp : ℚ) (new_value : Option String) (a : String) :
    shareCountOf (classifyIntent st actor exfil_event doc_id doc_owner
        visibility timestamp new_value).2 a = shareCountOf st a ∧
    downloadCountOf (classifyIntent st actor exfil_event doc_id doc_owner
        visibility timestamp new_value).2 a = downloadCountOf st a ∧
    shareDomainsOf (classifyIntent st actor exfil_event doc_id doc_owner
        visibility timestamp new_value).2 a = shareDomainsOf st a := by
  have hub := classifyIntent_user_baselines st actor exfil_event doc_id
    doc_owner visibility timestamp new_value
  cases h : lookupStr actor st.user_baselines with
  | some b =>
    rw [h] at hub
    refine ⟨?_, ?_, ?_⟩ <;> simp [shareCountOf, downloadCountOf, shareDomainsOf, hub]
  | none =>
    rw [h] at hub
    refine ⟨?_, ?_, ?_⟩ <;>
      · simp only [shareCountOf, downloadCountOf, shareDomainsOf, hub,
          lookupStr_append]
        cases h2 : lookupStr a st.user_baselines with
        | some c => simp [h2]
        | none =>
          simp only [h2, lookupStr]
          by_cases ha : actor = a <;> simp [ha, h2]

set_option maxHeartbeats 2000000 in
/-- C3: for every egress event, delta in minutes and recon score, the severity
engine `_calculate_severity` returns exactly the base severity and reason code
of the first matching row of the section 4.7 table, followed by the recon-score
amplification (`high_recon_score` with a one-step promotion at score ≥ 10,
`elevated_recon_score` without promotion at 5 ≤ score < 10). -/
theorem calculateSeverity_matches_spec (e : ExfilEvent) (d rs : ℚ) :
    (calculateSeverity e d rs).1 = (severitySpec e d rs).1 ∧
    (calculateSeverity e d rs).2.2 = (severitySpec e d rs).2 := by
  unfold calculateSeverity severitySpec
  by_cases h10 : d ≤ 10 <;> by_cases h30 : d ≤ 30 <;>
    simp only [h10, h30, decide_True, decide_False, Bool.true_and, Bool.false_and,
      if_true, if_false] <;>
    cases e.is_revert <;>
    split_ifs <;> simp_all

/-- C6 counterexample: with no configured sensitive labels and no file labels,
owner `alice@finance.example.com` — whose local-part `alice` contains none of
exec/ceo/cfo/finance but whose domain part contains `finance` — yields `high`
from `_determine_sensitivity`, while the spec's local-part rule matches
nothing at step 2. -/
theorem determineSensitivity_owner_domain_cex :
    determineSensitivity [] [] "alice@finance.example.com" = "high" ∧
    sensitivityStep2Spec "alice@finance.example.com" = false := by
  constructor <;> decide

/-- C6 amended: when step 1 fails (no configured sensitive label matches any
file label), `_determine_sensitivity` returns `high` exactly when one of
exec/ceo/cfo/finance occurs as a substring of the whole lowercased owner
email — the domain part included, not only the local-part. -/
theorem determineSensitivity_high_iff (sensitive_labels labels : List String)
    (owner : String)
    (h : sensitive_labels.any (fun sl =>
        (labels.map strLower).any (fun l => strContains l (strLower sl)))
      = false) :
    (determineSensitivity sensitive_labels labels owner = "high" ↔
      (["exec", "ceo", "cfo", "finance"].any
        (fun term => strContains (strLower owner) term)) = true) := by
  unfold determineSensitivity
  rw [if_neg (by rw [h]; decide)]
  by_cases h2 : (["exec", "ceo", "cfo", "finance"].any
      (fun term => strContains (strLower owner) term)) = true
  · rw [if_pos h2]
    simp [h2]
  · rw [if_neg (by simpa using h2)]
    simp only [h2, iff_false]
    split_ifs <;> exact iff_false_intro (by decide)

/-- Witness for the C6 amended theorem at a concrete input: owner
`ceo@corp.com` with empty label configuration. -/
theorem determineSensitivity_high_iff_witness :
    (([] : List String).any (fun sl =>
        (([] : List String).map strLower).any
          (fun l => strContains l (strLower sl))) = false) ∧
    (determineSensitivity [] [] "ceo@corp.com" = "high" ↔
      (["exec", "ceo", "cfo", "finance"].any
        (fun term => strContains (strLower "ceo@corp.com") term)) = true) :=
  ⟨by decide, determineSensitivity_high_iff [] [] "ceo@corp.com" (by decide)⟩

/-- C4 counterexample: an activity 48 hours in the future of `now`
(`activity_time = 172800 s`, `current_time = 0 s`, so `hours_elapsed = -48`)
has decay factor `0.5 ** (-1) = 2`, not the claimed 1.0. -/
theorem calculateDecayFactor_future_not_one :
    calculateDecayFactor 172800 0 = 2 ∧ (2 : ℝ) ≠ 1 := by
  refine ⟨?_, by norm_num⟩
  unfold calculateDecayFactor DECAY_HALF_LIFE_HOURS
  rw [show ((0 - 172800 : ℝ) / 3600 / 48) = (-1 : ℝ) by norm_num]
  rw [Real.rpow_neg_one]
  norm_num

/-- C4 amended: `_calculate_decay_factor` applies no clamp; for an activity
strictly in the future of `now` the factor `0.5 ** (negative / 48)` is
strictly greater than 1.0 — the contribution is amplified, not frozen. -/
theorem calculateDecayFactor_future_gt_one (activity_time current_time : ℝ)
    (h : current_time < activity_time) :
    1 < calculateDecayFactor activity_time current_time := by
  unfold calculateDecayFactor DECAY_HALF_LIFE_HOURS
  rw [Real.one_lt_rpow_iff_of_pos (by norm_num)]
  right
  exact ⟨by norm_num, by linarith⟩

/-- Witness for the C4 amended theorem: an activity 96 hours in the future. -/
theorem calculateDecayFactor_future_gt_one_witness :
    (0 : ℝ) < 345600 ∧ 1 < calculateDecayFactor 345600 0 :=
  ⟨by norm_num, calculateDecayFactor_future_gt_one 345600 0 (by norm_num)⟩

theorem actionToScore_nonneg (a : String) : 0 ≤ actionToScore a := by
  unfold actionToScore
  split_ifs <;> norm_num

theorem calculateDecayFactor_antitone (a : ℝ) {t1 t2 : ℝ} (h : t1 ≤ t2) :
    calculateDecayFactor a t2 ≤ calculateDecayFactor a t1 := by
  unfold calculateDecayFactor DECAY_HALF_LIFE_HOURS
  apply Real.rpow_le_rpow_of_exponent_ge (by norm_num) (by norm_num)
  linarith

theorem round2R_mono {x y : ℝ} (h : x ≤ y) : round2R x ≤ round2R y := by
  unfold round2R
  have h2 : round (100 * x) ≤ round (100 * y) := by
    rw [round_eq, round_eq]
    exact Int.floor_mono (by linarith)
  have h3 : ((round (100 * x) : ℤ) : ℝ) ≤ ((round (100 * y) : ℤ) : ℝ) := by
    exact_mod_cast h2
  linarith

theorem lookupStr_mem {β : Type} {k : String} {s : List (String × β)} {b : β}
    (h : lookupStr k s = some b) : (k, b) ∈ s := by
  induction s with
  | nil => simp [lookupStr] at h
  | cons p rest ih =>
    by_cases hp : p.1 = k
    · simp only [lookupStr, hp, if_pos] at h
      cases p with
      | mk k2 b2 =>
        simp_all
    · simp only [lookupStr, hp, if_neg, if_false] at h
      exact List.mem_cons_of_mem _ (ih h)

theorem recordRecon_scores_nonneg (s : ReconMemStore) (actor : String)
    (t : ℝ) (app action : String) (doc : Option String)
    (hs : ∀ p ∈ s, ∀ a ∈ p.2, 0 ≤ a.score) :
    ∀ p ∈ recordRecon s actor t app action doc, ∀ a ∈ p.2, 0 ≤ a.score := by
  intro p hp a ha
  simp only [recordRecon] at hp
  cases hl : lookupStr ("recon:" ++ actor) s with
  | some l =>
    rw [hl] at hp
    rcases List.mem_map.mp hp with ⟨q, hq, hqe⟩
    by_cases hk : q.1 = "recon:" ++ actor
    · rw [if_pos hk] at hqe
      rw [← hqe] at ha
      rcases List.mem_append.mp ha with h1 | h1
      · exact hs q hq a h1
      · rcases List.mem_singleton.mp h1 with rfl
        exact actionToScore_nonneg action
    · rw [if_neg hk] at hqe
      rw [← hqe] at ha
      exact hs q hq a ha
  | none =>
    rw [hl] at hp
    rcases List.mem_append.mp hp with h1 | h1
    · exact hs p h1 a ha
    · rcases List.mem_singleton.mp h1 with rfl
      rcases List.mem_singleton.mp ha with rfl
      exact actionToScore_nonneg action

theorem buildStore_scores_nonneg (recs : List RecordCall) :
    ∀ p ∈ buildStore recs, ∀ a ∈ p.2, 0 ≤ a.score := by
  unfold buildStore
  generalize hinit : ([] : ReconMemStore) = init
  have hi : ∀ p ∈ init, ∀ a ∈ p.2, 0 ≤ a.score := by
    rw [← hinit]
    simp
  clear hinit
  induction recs generalizing init with
  | nil => simpa using hi
  | cons r rest ih =>
    simp only [List.foldl_cons]
    exact ih _ (recordRecon_scores_nonneg _ _ _ _ _ _ hi)

/-- C7: over any store built by `record_recon` calls, for every actor the
rounded cumulative recon score is monotonically non-increasing in the scoring
time: t1 ≤ t2 implies score(actor, t2) ≤ score(actor, t1). -/
theorem getReconScore_antitone (recs : List RecordCall) (actor : String)
    (t1 t2 : ℝ) (h : t1 ≤ t2) :
    getReconScoreR (buildStore recs) actor t2 ≤
      getReconScoreR (buildStore recs) actor t1 := by
  simp only [getReconScoreR]
  apply round2R_mono
  apply List.sum_le_sum
  intro a ha
  have hscore : 0 ≤ a.score := by
    cases hl : lookupStr ("recon:" ++ actor) (buildStore recs) with
    | none => rw [hl] at ha; simp at ha
    | some l =>
      rw [hl] at ha
      simp only [Option.getD_some] at ha
      exact buildStore_scores_nonneg recs _ (lookupStr_mem hl) a ha
  exact mul_le_mul_of_nonneg_left (calculateDecayFactor_antitone _ h) hscore

/-- Witness for C7: one `summarize` recorded at time 0, scored at 0 and at
3600 seconds. -/
theorem getReconScore_antitone_witness :
    (0 : ℝ) ≤ 3600 ∧
    getReconScoreR (buildStore [("u", 0, "docs", "summarize", none)]) "u"
        3600 ≤
      getReconScoreR (buildStore [("u", 0, "docs", "summarize", none)]) "u"
        0 :=
  ⟨by norm_num,
    getReconScore_antitone [("u", 0, "docs", "summarize", none)] "u" 0 3600
      (by norm_num)⟩

theorem enrichFinding_fields (gm : String → Option FileMetadata) (f : Finding)
    (d : Option String) :
    (enrichFinding gm f d).delta_minutes = f.delta_minutes ∧
    (enrichFinding gm f d).intent_analysis = f.intent_analysis ∧
    (enrichFinding gm f d).recon_action = f.recon_action ∧
    (enrichFinding gm f d).doc_id = f.doc_id ∧
    (enrichFinding gm f d).reason_codes = f.reason_codes ∧
    (∃ suffix, (enrichFinding gm f d).reason = f.reason ++ suffix) ∧
    (f.severity = "high" → (enrichFinding gm f d).severity = "high") := by
  cases d with
  | none =>
    exact ⟨rfl, rfl, rfl, rfl, rfl, ⟨"", (String.append_empty f.reason).symm⟩,
      fun h => h⟩
  | some s =>
    simp only [enrichFinding]
    by_cases hs : s = ""
    · rw [if_pos hs]
      exact ⟨rfl, rfl, rfl, rfl, rfl, ⟨"", (String.append_empty f.reason).symm⟩,
        fun h => h⟩
    · rw [if_neg hs]
      cases hgm : gm s with
      | none =>
        exact ⟨rfl, rfl, rfl, rfl, rfl,
          ⟨"", (String.append_empty f.reason).symm⟩, fun h => h⟩
      | some m =>
        simp only []
        split_ifs with h1 h2 h3
        · exact ⟨rfl, rfl, rfl, rfl, rfl, ⟨" (high-sensitivity file)", rfl⟩,
            fun _ => rfl⟩
        · refine ⟨rfl, rfl, rfl, rfl, rfl,
            ⟨" (high-sensitivity file)", rfl⟩, fun hh => ?_⟩
          rw [hh] at h3
          exact absurd h3 (by decide)
        · exact ⟨rfl, rfl, rfl, rfl, rfl,
            ⟨"", (String.append_empty f.reason).symm⟩, fun h => h⟩
        · exact ⟨rfl, rfl, rfl, rfl, rfl,
            ⟨"", (String.append_empty f.reason).symm⟩, fun h => h⟩

theorem enrichFinding_delta (gm : String → Option FileMetadata) (f : Finding)
    (d : Option String) :
    (enrichFinding gm f d).delta_minutes = f.delta_minutes :=
  (enrichFinding_fields gm f d).1

theorem enrichFinding_intent (gm : String → Option FileMetadata) (f : Finding)
    (d : Option String) :
    (enrichFinding gm f d).intent_analysis = f.intent_analysis :=
  (enrichFinding_fields gm f d).2.1

theorem enrichFinding_recon_action (gm : String → Option FileMetadata)
    (f : Finding) (d : Option String) :
    (enrichFinding gm f d).recon_action = f.recon_action :=
  (enrichFinding_fields gm f d).2.2.1

theorem enrichFinding_doc_id (gm : String → Option FileMetadata) (f : Finding)
    (d : Option String) : (enrichFinding gm f d).doc_id = f.doc_id :=
  (enrichFinding_fields gm f d).2.2.2.1

theorem enrichFinding_reason_codes (gm : String → Option FileMetadata)
    (f : Finding) (d : Option String) :
    (enrichFinding gm f d).reason_codes = f.reason_codes :=
  (enrichFinding_fields gm f d).2.2.2.2.1

theorem enrichFinding_reason_suffix (gm : String → Option FileMetadata)
    (f : Finding) (d : Option String) :
    ∃ suffix, (enrichFinding gm f d).reason = f.reason ++ suffix :=
  (enrichFinding_fields gm f d).2.2.2.2.2.1

theorem enrichFinding_severity_high (gm : String → Option FileMetadata)
    (f : Finding) (d : Option String) (h : f.severity = "high") :
    (enrichFinding gm f d).severity = "high" :=
  (enrichFinding_fields gm f d).2.2.2.2.2.2 h

theorem mkMatchedFinding_fields (ctx : CorrelateCtx)
    (cls : Option ClassifierState) (e : ExfilEvent) (r : ReconEvent)
    (dm rs : ℚ) (f : Finding)
    (h : (mkMatchedFinding ctx cls e r dm rs).1 = some f) :
    f.delta_minutes = round2 dm ∧ f.recon_action = r.action ∧
    f.doc_id = e.doc_id ∧
    (∀ ia, f.intent_analysis = some ia → ia.should_suppress = false) := by
  unfold mkMatchedFinding at h
  cases hgm : ctx.getMeta with
  | none =>
    rw [hgm] at h
    simp only [] at h
    cases cls with
    | none =>
      simp only [] at h
      rw [Option.some.injEq] at h
      subst h
      refine ⟨rfl, rfl, rfl, fun ia hia => ?_⟩
      simp at hia
    | some st =>
      simp only [] at h
      by_cases hsup : (classifyIntent st e.actor e.event_name e.doc_id e.owner
          e.visibility e.timestamp e.new_value).1.should_suppress = true
      · rw [if_pos hsup] at h
        simp at h
      · rw [if_neg hsup] at h
        split_ifs at h <;>
        · rw [Option.some.injEq] at h
          subst h
          refine ⟨rfl, rfl, rfl, fun ia hia => ?_⟩
          rw [Option.some.injEq] at hia
          subst hia
          simpa using hsup
  | some gm =>
    rw [hgm] at h
    simp only [] at h
    cases cls with
    | none =>
      simp only [] at h
      rw [Option.some.injEq] at h
      subst h
      refine ⟨?_, ?_, ?_, fun ia hia => ?_⟩
      · rw [enrichFinding_delta]
      · rw [enrichFinding_recon_action]
      · rw [enrichFinding_doc_id]
      · rw [enrichFinding_intent] at hia
        simp at hia
    | some st =>
      simp only [] at h
      by_cases hsup : (classifyIntent st e.actor e.event_name e.doc_id e.owner
          e.visibility e.timestamp e.new_value).1.should_suppress = true
      · rw [if_pos hsup] at h
        simp at h
      · rw [if_neg hsup] at h
        split_ifs at h <;>
        · rw [Option.some.injEq] at h
          subst h
          refine ⟨?_, ?_, ?_, fun ia hia => ?_⟩
          · simp [enrichFinding_delta]
          · simp [enrichFinding_recon_action]
          · simp [enrichFinding_doc_id]
          · simp only [Option.some.injEq] at hia
            subst hia
            simpa using hsup

theorem strMem_iff (x : String) (l : List String) :
    strMem x l = true ↔ x ∈ l := by
  induction l with
  | nil => simp [strMem]
  | cons y ys ih => simp [strMem, ih]

theorem mkMatchedFinding_canary (ctx : CorrelateCtx)
    (cls : Option ClassifierState) (e : ExfilEvent) (r : ReconEvent)
    (dm rs : ℚ) (f : Finding) (d : String)
    (h : (mkMatchedFinding ctx cls e r dm rs).1 = some f)
    (hd : e.doc_id = some d) (hne : d ≠ "")
    (hc : d ∈ ctx.canary_doc_ids) :
    (∃ codes, f.reason_codes = some (codes ++ ["canary_doc_access"])) ∧
    (∃ rest, f.reason = "CANARY DOCUMENT ACCESS - " ++ rest) ∧
    (f.severity = "high" ∨ (f.severity = "medium" ∧
      ∃ ia, f.intent_analysis = some ia ∧ ia.intent = "legitimate")) := by
  have hcanb : (match e.doc_id with
      | some d0 => !(d0 == "") && strMem d0 ctx.canary_doc_ids
      | none => false) = true := by
    rw [hd]
    simp [hne, (strMem_iff d ctx.canary_doc_ids).mpr hc]
  unfold mkMatchedFinding at h
  rw [hcanb] at h
  simp only [if_pos] at h
  cases hgm : ctx.getMeta with
  | none =>
    rw [hgm] at h
    simp only [] at h
    cases cls with
    | none =>
      simp only [] at h
      rw [Option.some.injEq] at h
      subst h
      exact ⟨⟨(calculateSeverity e dm rs).2.2, rfl⟩,
        ⟨(calculateSeverity e dm rs).2.1, rfl⟩, Or.inl rfl⟩
    | some st =>
      simp only [] at h
      by_cases hsup : (classifyIntent st e.actor e.event_name e.doc_id e.owner
          e.visibility e.timestamp e.new_value).1.should_suppress = true
      · rw [if_pos hsup] at h
        simp at h
      · rw [if_neg hsup] at h
        split_ifs at h with hlegit
        · rw [Option.some.injEq] at h
          subst h
          refine ⟨⟨(calculateSeverity e dm rs).2.2, rfl⟩,
            ⟨(calculateSeverity e dm rs).2.1, rfl⟩, Or.inr ⟨rfl, ?_⟩⟩
          exact ⟨_, rfl, hlegit⟩
        · rw [Option.some.injEq] at h
          subst h
          exact ⟨⟨(calculateSeverity e dm rs).2.2, rfl⟩,
            ⟨(calculateSeverity e dm rs).2.1, rfl⟩, Or.inl rfl⟩
  | some gm =>
    rw [hgm] at h
    simp only [] at h
    have hsevhigh : ∀ g : Finding, g.severity = "high" →
        (enrichFinding gm g e.doc_id).severity = "high" :=
      fun g hg => enrichFinding_severity_high gm g e.doc_id hg
    cases cls with
    | none =>
      simp only [] at h
      rw [Option.some.injEq] at h
      subst h
      refine ⟨?_, ?_, Or.inl (enrichFinding_severity_high _ _ _ rfl)⟩
      · exact ⟨(calculateSeverity e dm rs).2.2,
          by rw [enrichFinding_reason_codes]⟩
      · rcases enrichFinding_reason_suffix gm _ e.doc_id with ⟨suffix, hsuf⟩
        exact ⟨(calculateSeverity e dm rs).2.1 ++ suffix,
          by rw [hsuf, String.append_assoc]⟩
    | some st =>
      simp only [] at h
      by_cases hsup : (classifyIntent st e.actor e.event_name e.doc_id e.owner
          e.visibility e.timestamp e.new_value).1.should_suppress = true
      · rw [if_pos hsup] at h
        simp at h
      · rw [if_neg hsup] at h
        split_ifs at h with hlegit hhigh hmed
        · rw [Option.some.injEq] at h
          subst h
          refine ⟨?_, ?_, Or.inr ⟨rfl, ⟨_, rfl, hlegit⟩⟩⟩
          · exact ⟨(calculateSeverity e dm rs).2.2,
              by rw [show (enrichFinding gm _ e.doc_id).reason_codes = _ from
                enrichFinding_reason_codes gm _ e.doc_id]⟩
          · rcases enrichFinding_reason_suffix gm _ e.doc_id with ⟨suffix, hsuf⟩
            exact ⟨(calculateSeverity e dm rs).2.1 ++ suffix,
              by rw [show (enrichFinding gm _ e.doc_id).reason = _ from hsuf,
                String.append_assoc]⟩
        · exact absurd (enrichFinding_severity_high gm _ e.doc_id rfl) hhigh
        · exact absurd (enrichFinding_severity_high gm _ e.doc_id rfl) hhigh
        · rw [Option.some.injEq] at h
          subst h
          refine ⟨?_, ?_,
            Or.inl (enrichFinding_severity_high gm _ e.doc_id rfl)⟩
          · exact ⟨(calculateSeverity e dm rs).2.2,
              by rw [show (enrichFinding gm _ e.doc_id).reason_codes = _ from
                enrichFinding_reason_codes gm _ e.doc_id]⟩
          · rcases enrichFinding_reason_suffix gm _ e.doc_id with ⟨suffix, hsuf⟩
            exact ⟨(calculateSeverity e dm rs).2.1 ++ suffix,
              by rw [show (enrichFinding gm _ e.doc_id).reason = _ from hsuf,
                String.append_assoc]⟩

theorem correlateRecons_mem (ctx : CorrelateCtx) (w : ℤ) (e : ExfilEvent)
    (rs : ℚ) (recons : List ReconEvent) (cls : Option ClassifierState)
    (f : Finding) (hf : f ∈ (correlateRecons ctx w e rs recons cls).2.1) :
    ∃ recon ∈ recons, ∃ cls' : Option ClassifierState,
      0 ≤ (e.timestamp - recon.timestamp) / 60 ∧
      (e.timestamp - recon.timestamp) / 60 ≤ (w : ℚ) ∧
      (mkMatchedFinding ctx cls' e recon ((e.timestamp - recon.timestamp) / 60)
        rs).1 = some f := by
  induction recons generalizing cls with
  | nil => simp [correlateRecons] at hf
  | cons recon rest ih =>
    simp only [correlateRecons] at hf
    by_cases hw : 0 ≤ (e.timestamp - recon.timestamp) / 60 ∧
        (e.timestamp - recon.timestamp) / 60 ≤ (w : ℚ)
    · rw [if_pos hw] at hf
      simp only [] at hf
      cases hmk : (mkMatchedFinding ctx cls e recon
          ((e.timestamp - recon.timestamp) / 60) rs).1 with
      | some g =>
        rw [hmk] at hf
        simp only [List.mem_cons] at hf
        rcases hf with rfl | hf
        · exact ⟨recon, List.mem_cons_self recon rest, cls, hw.1, hw.2, hmk⟩
        · rcases ih _ hf with ⟨recon', hmem, cls', h1, h2, h3⟩
          exact ⟨recon', List.mem_cons_of_mem _ hmem, cls', h1, h2, h3⟩
      | none =>
        rw [hmk] at hf
        rcases ih _ hf with ⟨recon', hmem, cls', h1, h2, h3⟩
        exact ⟨recon', List.mem_cons_of_mem _ hmem, cls', h1, h2, h3⟩
    · rw [if_neg hw] at hf
      rcases ih _ hf with ⟨recon', hmem, cls', h1, h2, h3⟩
      exact ⟨recon', List.mem_cons_of_mem _ hmem, cls', h1, h2, h3⟩

theorem processExfil_mem (ctx : CorrelateCtx) (w : ℤ)
    (recons : List ReconEvent) (acc : Option ClassifierState × List Finding)
    (e : ExfilEvent) (f : Finding)
    (hf : f ∈ (processExfil ctx w recons acc e).2) :
    f ∈ acc.2 ∨ EmittedBy ctx w recons e f := by
  simp only [processExfil] at hf
  split_ifs at hf with hcond
  · rcases List.mem_append.mp hf with h1 | h1
    · rcases List.mem_append.mp h1 with h2 | h2
      · exact Or.inl h2
      · rcases correlateRecons_mem ctx w e _ _ _ f h2 with
          ⟨recon, hmem, cls', ha, hb, hc⟩
        exact Or.inr (Or.inl ⟨recon, hmem, cls', ha, hb, hc⟩)
    · rcases List.mem_singleton.mp h1 with rfl
      exact Or.inr (Or.inr rfl)
  · rcases List.mem_append.mp hf with h1 | h1
    · exact Or.inl h1
    · rcases correlateRecons_mem ctx w e _ _ _ f h1 with
        ⟨recon, hmem, cls', ha, hb, hc⟩
      exact Or.inr (Or.inl ⟨recon, hmem, cls', ha, hb, hc⟩)

theorem foldl_processExfil_mem (ctx : CorrelateCtx) (w : ℤ)
    (recons : List ReconEvent) (exfils : List ExfilEvent)
    (acc : Option ClassifierState × List Finding) (f : Finding)
    (hf : f ∈ (exfils.foldl (processExfil ctx w recons) acc).2) :
    f ∈ acc.2 ∨ ∃ e ∈ exfils, EmittedBy ctx w recons e f := by
  induction exfils generalizing acc with
  | nil => exact Or.inl (by simpa using hf)
  | cons e rest ih =>
    simp only [List.foldl_cons] at hf
    rcases ih _ hf with h1 | h1
    · rcases processExfil_mem ctx w recons acc e f h1 with h2 | h2
      · exact Or.inl h2
      · exact Or.inr ⟨e, List.mem_cons_self e rest, h2⟩
    · rcases h1 with ⟨e', he', hE⟩
      exact Or.inr ⟨e', List.mem_cons_of_mem _ he', hE⟩

/-- Every finding emitted by `correlate_events` comes from one of the two
emission sites, for some processed egress event. -/
theorem correlateEvents_mem (ctx : CorrelateCtx)
    (cls0 : Option ClassifierState) (recons : List ReconEvent)
    (exfils : List ExfilEvent) (w : ℤ) (f : Finding)
    (hf : f ∈ correlateEvents ctx cls0 recons exfils w) :
    ∃ e ∈ exfils, EmittedBy ctx w recons e f := by
  unfold correlateEvents at hf
  rcases foldl_processExfil_mem ctx w recons exfils _ f hf with h | h
  · simp at h
  · exact h

theorem round2_mono {x y : ℚ} (h : x ≤ y) : round2 x ≤ round2 y := by
  unfold round2
  have h2 : round (100 * x) ≤ round (100 * y) := by
    rw [round_eq, round_eq]
    exact Int.floor_mono (by linarith)
  have h3 : ((round (100 * x) : ℤ) : ℚ) ≤ ((round (100 * y) : ℤ) : ℚ) := by
    exact_mod_cast h2
  linarith

theorem round2_zero : round2 0 = 0 := by
  norm_num [round2]

theorem round2_intCast (w : ℤ) : round2 ((w : ℚ)) = (w : ℚ) := by
  unfold round2
  rw [show (100 : ℚ) * (w : ℚ) = ((100 * w : ℤ) : ℚ) by push_cast; ring,
    round_intCast]
  push_cast
  ring

/-- C1: for every run of the correlator, no finding whose
`intent_analysis.should_suppress` is true appears in the emitted findings:
whenever `classify_intent` flags suppression the draft is discarded before it
reaches the output, and delayed-exfil findings carry no intent analysis at
all. -/
theorem correlate_no_suppressed_finding (ctx : CorrelateCtx)
    (cls0 : Option ClassifierState) (recons : List ReconEvent)
    (exfils : List ExfilEvent) (w : ℤ) (f : Finding)
    (hf : f ∈ correlateEvents ctx cls0 recons exfils w) (ia : IntentAnalysis)
    (hia : f.intent_analysis = some ia) : ia.should_suppress = false := by
  rcases correlateEvents_mem ctx cls0 recons exfils w f hf with ⟨e, _, hE⟩
  simp only [EmittedBy] at hE
  rcases hE with ⟨recon, _, cls', _, _, hmk⟩ | hE
  · exact (mkMatchedFinding_fields ctx cls' e recon _ _ f hmk).2.2.2 ia hia
  · rw [hE] at hia
    simp [delayedFinding] at hia

/-- C9: every emitted finding has `delta_minutes` in `[0, window_minutes]`
when it pairs a concrete recon with an egress event, and exactly 0 when it is
a delayed-exfil (`cumulative_recon`) finding.  The hypothesis that no recon
event carries the literal action `cumulative_recon` separates the two shapes
(fetched recon actions come from `RECON_ACTIONS`, which does not contain
it). -/
theorem correlate_delta_bounds (ctx : CorrelateCtx)
    (cls0 : Option ClassifierState) (recons : List ReconEvent)
    (exfils : List ExfilEvent) (w : ℤ) (f : Finding)
    (hrec : ∀ r ∈ recons, r.action ≠ "cumulative_recon")
    (hf : f ∈ correlateEvents ctx cls0 recons exfils w) :
    (f.recon_action = "cumulative_recon" ∧ f.delta_minutes = 0) ∨
    (f.recon_action ≠ "cumulative_recon" ∧ 0 ≤ f.delta_minutes ∧
      f.delta_minutes ≤ (w : ℚ)) := by
  rcases correlateEvents_mem ctx cls0 recons exfils w f hf with ⟨e, _, hE⟩
  simp only [EmittedBy] at hE
  rcases hE with ⟨recon, hmem, cls', h0, hw, hmk⟩ | hE
  · right
    have hfld := mkMatchedFinding_fields ctx cls' e recon _ _ f hmk
    have hact : recon ∈ recons := (List.mem_filter.mp hmem).1
    refine ⟨?_, ?_, ?_⟩
    · rw [hfld.2.1]
      exact hrec recon hact
    · rw [hfld.1]
      have := round2_mono h0
      rwa [round2_zero] at this
    · rw [hfld.1]
      have := round2_mono hw
      rwa [round2_intCast] at this
  · left
    rw [hE]
    exact ⟨rfl, rfl⟩

/-- C10: every delayed-exfil finding bypasses the canary override, the
file-context enrichment and the intent classification entirely: its severity
is `medium` even when its doc id is a canary (the theorem holds for every
configured canary set), and its `file_context` and `intent_analysis` are
`None`, so it can neither be suppressed nor have its severity changed. -/
theorem correlate_delayed_bypasses_all (ctx : CorrelateCtx)
    (cls0 : Option ClassifierState) (recons : List ReconEvent)
    (exfils : List ExfilEvent) (w : ℤ) (f : Finding)
    (hrec : ∀ r ∈ recons, r.action ≠ "cumulative_recon")
    (hf : f ∈ correlateEvents ctx cls0 recons exfils w)
    (hcum : f.recon_action = "cumulative_recon") :
    f.severity = "medium" ∧ f.file_context = none ∧
      f.intent_analysis = none := by
  rcases correlateEvents_mem ctx cls0 recons exfils w f hf with ⟨e, _, hE⟩
  simp only [EmittedBy] at hE
  rcases hE with ⟨recon, hmem, cls', _, _, hmk⟩ | hE
  · have hfld := mkMatchedFinding_fields ctx cls' e recon _ _ f hmk
    have hact : recon ∈ recons := (List.mem_filter.mp hmem).1
    rw [hfld.2.1] at hcum
    exact absurd hcum (hrec recon hact)
  · rw [hE]
    exact ⟨rfl, rfl, rfl⟩

/-- C2 amended: the canary override applies to every recon-matched finding —
`canary_doc_access` is appended and `"CANARY DOCUMENT ACCESS - "` prepended —
and sets severity high before enrichment and intent classification; the later
legitimate-intent downgrade can still lower it to medium, and delayed-exfil
findings bypass the canary override entirely (see the C10 theorem). -/
theorem correlate_canary_matched (ctx : CorrelateCtx)
    (cls0 : Option ClassifierState) (recons : List ReconEvent)
    (exfils : List ExfilEvent) (w : ℤ) (f : Finding) (d : String)
    (hf : f ∈ correlateEvents ctx cls0 recons exfils w)
    (hnotdelayed : f.recon_action ≠ "cumulative_recon")
    (hd : f.doc_id = some d) (hne : d ≠ "")
    (hc : d ∈ ctx.canary_doc_ids) :
    (∃ codes, f.reason_codes = some (codes ++ ["canary_doc_access"])) ∧
    (∃ rest, f.reason = "CANARY DOCUMENT ACCESS - " ++ rest) ∧
    (f.severity = "high" ∨ (f.severity = "medium" ∧
      ∃ ia, f.intent_analysis = some ia ∧ ia.intent = "legitimate")) := by
  rcases correlateEvents_mem ctx cls0 recons exfils w f hf with ⟨e, _, hE⟩
  simp only [EmittedBy] at hE
  rcases hE with ⟨recon, hmem, cls', _, _, hmk⟩ | hE
  · have hdoc : e.doc_id = some d := by
      rw [← (mkMatchedFinding_fields ctx cls' e recon _ _ f hmk).2.2.1]
      exact hd
    exact mkMatchedFinding_canary ctx cls' e recon _ _ f d hmk hdoc hne hc
  · rw [hE] at hnotdelayed
    exact absurd rfl hnotdelayed

/-- C8 amended: the single-recon matching condition of the correlator is
`0 ≤ delta_minutes ≤ window_minutes` — forward in time *inclusively*: a recon
and an egress with identical timestamps (delta 0) are matched. -/
theorem correlateRecons_matched_iff (ctx : CorrelateCtx) (w : ℤ)
    (e : ExfilEvent) (rs : ℚ) (r : ReconEvent)
    (cls : Option ClassifierState) :
    (correlateRecons ctx w e rs [r] cls).2.2 = true ↔
      (0 ≤ (e.timestamp - r.timestamp) / 60 ∧
       (e.timestamp - r.timestamp) / 60 ≤ (w : ℚ)) := by
  simp only [correlateRecons]
  by_cases h : 0 ≤ (e.timestamp - r.timestamp) / 60 ∧
      (e.timestamp - r.timestamp) / 60 ≤ (w : ℚ)
  · rw [if_pos h]
    simpa using h
  · rw [if_neg h]
    simpa using h

/-- C8 counterexample: a recon and an egress with identical timestamps by the
same actor ARE matched into an emitted finding (with delta 0), contradicting
"egress strictly after recon". -/
theorem equal_timestamps_are_matched :
    (correlateEvents plainCtx none
        [⟨"u@x", 600, "docs", "summarize_file", "r1"⟩]
        [{ actor := "u@x", timestamp := 600, event_name := "download_file",
           event_id := "e1" }] 30).map
      (fun f => (f.event_ids_recon, f.event_ids_exfil, f.delta_minutes))
      = [("r1", "e1", 0)] := by
  norm_num [correlateEvents, processExfil, correlateRecons, mkMatchedFinding,
    calculateSeverity, strContains, listInfixOf, listPrefixOf, round2,
    visibilityHighRisk, HIGH_RISK_VISIBILITY, plainCtx,
    String.reduceEq, String.reduceBEq, Char.reduceBEq]

theorem buildBaselines_eval : buildBaselinesFromHistory st0 [wExfil] = st1 := by
  have hdl : ¬("change_acl_editors" = "download") := by decide
  have hex : ¬("change_acl_editors" = "export") := by decide
  norm_num [buildBaselinesFromHistory, updateBaseline, getOrCreateBaseline,
    lookupStr, setBaselineEntry, extractDestinationDomain, st0, st1, wExfil,
    hdl, hex, String.reduceEq]

theorem classifyIntent_eval :
    classifyIntent st1 "u@x" "change_acl_editors" (some "D1") none
      (some "people_with_link") 900 none = (wIA, st1) := by
  have hoff : isOffHours 900 = true := by decide
  have hdl : ¬("change_acl_editors" = "download") := by decide
  have hex : ¬("change_acl_editors" = "export") := by decide
  norm_num [classifyIntent, classifyDomainBlock, classifyOwnerBlock,
    classifyBaselineBlock, classifyOffHoursBlock, classifyDownloadBlock,
    getOrCreateBaseline, lookupStr, extractDestinationDomain, st1, wIA, hoff,
    hdl, hex, round2, round_eq, String.reduceEq]

theorem calculateSeverity_eval :
    calculateSeverity wExfil 5 0 =
      ("high", "External share/transfer within 10min of recon",
        ["external_share_immediate"]) := by
  norm_num [calculateSeverity, strContains, listInfixOf, listPrefixOf,
    visibilityHighRisk, HIGH_RISK_VISIBILITY, strMem, strJoin, wExfil,
    String.reduceEq, String.reduceBEq, Char.reduceBEq]

theorem mkMatched_eval :
    mkMatchedFinding wCtx (some st1) wExfil wRecon 5 0 =
      (some wF, some st1) := by
  have h2 : round2 5 = 5 := by norm_num [round2, round_eq]
  have hsev := calculateSeverity_eval
  have hcls := classifyIntent_eval
  simp only [wCtx, wExfil, wRecon] at hsev hcls ⊢
  simp only [mkMatchedFinding]
  norm_num [hsev, hcls, wF, wIA, strMem, h2,
    String.reduceEq, String.reduceBEq]
  simp [String.reduceEq]

theorem wRun_eq : wRun = [wF] := by
  have hd5 : ((900 : ℚ) - 600) / 60 = 5 := by norm_num
  have hb := buildBaselines_eval
  have hmk := mkMatched_eval
  simp only [wCtx, wExfil, wRecon] at hb hmk
  norm_num [wRun, correlateEvents, processExfil, correlateRecons, hb, hd5,
    wCtx, wRecon, wExfil, String.reduceBEq]
  rw [hmk]

theorem wRun2_eq : wRun2 = [delayedFinding wCtx2 wExfil 6] := by
  norm_num [wRun2, correlateEvents, processExfil, correlateRecons, wCtx2,
    wExfil]

/-- Witness for the C1 theorem: the concrete run `wRun` emits `wF`, whose
intent analysis is present and not suppressing. -/
theorem correlate_no_suppressed_finding_witness :
    wF ∈ wRun ∧ wF.intent_analysis = some wIA ∧
      wIA.should_suppress = false := by
  have hmem : wF ∈ wRun := by
    rw [wRun_eq]
    exact List.mem_singleton.mpr rfl
  exact ⟨hmem, rfl,
    correlate_no_suppressed_finding wCtx (some st0) [wRecon] [wExfil] 30 wF
      hmem wIA rfl⟩

/-- Witness for the C9 theorem at the concrete run `wRun`: the matched
finding's delta (5 minutes) lies inside `[0, 30]`. -/
theorem correlate_delta_bounds_witness :
    0 ≤ wF.delta_minutes ∧ wF.delta_minutes ≤ ((30 : ℤ) : ℚ) := by
  have hmem : wF ∈ wRun := by
    rw [wRun_eq]
    exact List.mem_singleton.mpr rfl
  have h := correlate_delta_bounds wCtx (some st0) [wRecon] [wExfil] 30 wF
    (by intro r hr; rcases List.mem_singleton.mp hr with rfl; decide) hmem
  rcases h with ⟨hcum, _⟩ | ⟨_, h1, h2⟩
  · exact absurd hcum (by decide)
  · exact ⟨h1, h2⟩

/-- Witness for the C10 theorem: the delayed-exfil run `wRun2` (canary doc id
`D1`, cumulative score 6, no recon) emits a finding of severity medium with
no file context and no intent analysis. -/
theorem correlate_delayed_bypasses_all_witness :
    (delayedFinding wCtx2 wExfil 6).severity = "medium" ∧
    (delayedFinding wCtx2 wExfil 6).file_context = none ∧
    (delayedFinding wCtx2 wExfil 6).intent_analysis = none := by
  have hmem : delayedFinding wCtx2 wExfil 6 ∈ wRun2 := by
    rw [wRun2_eq]
    exact List.mem_singleton.mpr rfl
  exact correlate_delayed_bypasses_all wCtx2 none [] [wExfil] 30
    (delayedFinding wCtx2 wExfil 6) (by simp) hmem rfl

/-- C2 counterexample: in the concrete run `wRun2` the egress event's doc id
`D1` is in the configured canary set, yet the emitted (delayed-exfil) finding
has severity `medium`, not `high` — canary access is not high-severity on the
delayed-exfil path. -/
theorem canary_not_always_high :
    (delayedFinding wCtx2 wExfil 6) ∈ wRun2 ∧
    (delayedFinding wCtx2 wExfil 6).doc_id = some "D1" ∧
    "D1" ∈ wCtx2.canary_doc_ids ∧
    (delayedFinding wCtx2 wExfil 6).severity ≠ "high" := by
  refine ⟨?_, rfl, by decide, by decide⟩
  rw [wRun2_eq]
  exact List.mem_singleton.mpr rfl

/-- Witness for the C2 amended theorem at the concrete run `wRun`: the
matched canary finding carries the canary code and is high or medium. -/
theorem correlate_canary_matched_witness :
    "canary_doc_access" ∈ (wF.reason_codes.getD []) ∧
      (wF.severity = "high" ∨ wF.severity = "medium") := by
  have hmem : wF ∈ wRun := by
    rw [wRun_eq]
    exact List.mem_singleton.mpr rfl
  have h := correlate_canary_matched wCtx (some st0) [wRecon] [wExfil] 30 wF
    "D1" hmem (by decide) rfl (by decide) (by decide)
  constructor
  · rcases h.1 with ⟨codes, hcodes⟩
    rw [hcodes]
    simp
  · rcases h.2.2 with h1 | h1
    · exact Or.inl h1
    · exact Or.inr h1.1

end GeminiExfil
